import Mathlib

/-!
# Bolt group analysis — embedding and verification

Shallow embedding of the bolt-group analysis calculator:
* the bolt capacity catalog and its lookup (`boltData`, `getBoltProperties`
  from `boltData.ts`),
* the layout and force-distribution engine of the `App` component
  (`calculateBoltLayout` and the calculation effect), and
* the duplicated force computation of the `BoltPattern` component
  (`bpCalculateBoltForces`).

Machine floating-point numbers are modelled as real numbers; string fields
are Lean `String`s; tabulated capacities are rationals (they are decimal
literals in the source) and are coerced to `ℝ` where the engine uses them.
-/

namespace BoltAssembly

/-- A row of the capacity catalog (`BoltProperties` in `boltData.ts`). -/
structure BoltProperties where
  grade : String
  size : String
  phiVf : ℚ
  phiNtf : ℚ
  tensileArea : ℚ
  fuf : ℚ
deriving DecidableEq, Repr

/-- The static capacity catalog (`boltData` in `boltData.ts`). -/
def boltData : List BoltProperties := [
  ⟨"Grade 4.6", "M12", 16.7, 27, 84.3, 400⟩,
  ⟨"Grade 4.6", "M16", 31.1, 50.1, 156.7, 400⟩,
  ⟨"Grade 4.6", "M20", 48.6, 78.3, 244.8, 400⟩,
  ⟨"Grade 4.6", "M22", 60.2, 97.1, 303.4, 400⟩,
  ⟨"Grade 4.6", "M24", 69.9, 112.8, 352.5, 400⟩,
  ⟨"Grade 4.6", "M27", 91.1, 147, 459.4, 400⟩,
  ⟨"Grade 4.6", "M30", 111.2, 179.4, 560.6, 400⟩,
  ⟨"Grade 4.6", "M36", 162, 261.4, 816.7, 400⟩,
  ⟨"Grade 8.8", "M12", 34.7, 56, 84.3, 830⟩,
  ⟨"Grade 8.8", "M16", 64.5, 104, 156.7, 830⟩,
  ⟨"Grade 8.8", "M20", 100.8, 162.5, 244.8, 830⟩,
  ⟨"Grade 8.8", "M22", 124.9, 201.5, 303.4, 830⟩,
  ⟨"Grade 8.8", "M24", 145.1, 234.1, 352.5, 830⟩,
  ⟨"Grade 8.8", "M27", 189.1, 305, 459.4, 830⟩,
  ⟨"Grade 8.8", "M30", 230.8, 372.2, 560.6, 830⟩,
  ⟨"Grade 8.8", "M36", 336.2, 542.3, 816.7, 830⟩,
  ⟨"Grade 10.9", "M12", 43.1, 69.4, 84.3, 1030⟩,
  ⟨"Grade 10.9", "M16", 80, 129.1, 156.7, 1030⟩,
  ⟨"Grade 10.9", "M20", 125.1, 201.7, 244.8, 1030⟩,
  ⟨"Grade 10.9", "M22", 155, 250, 303.4, 1030⟩,
  ⟨"Grade 10.9", "M24", 180.1, 290.5, 352.5, 1030⟩,
  ⟨"Grade 10.9", "M27", 234.7, 378.6, 459.4, 1030⟩,
  ⟨"Grade 10.9", "M30", 286.4, 461.9, 560.6, 1030⟩,
  ⟨"Grade 10.9", "M36", 417.2, 673, 816.7, 1030⟩]

/-- `getBoltProperties` from `boltData.ts`:
`boltData.find(bolt => bolt.grade === grade && bolt.size === size)`. -/
def getBoltProperties (grade size : String) : Option BoltProperties :=
  boltData.find? (fun bolt => bolt.grade == grade && bolt.size == size)

/-- The two bolt arrangements (`BoltArrangement` in the `App` component). -/
inductive BoltArrangement where
  | rectangular
  | circular
deriving DecidableEq, Repr

/-- A bolt position (`BoltPosition` in the `App` component), in mm
relative to the group centroid. -/
structure BoltPosition where
  x : ℝ
  y : ℝ

/-- The engine's inputs: the `inputs` state of the `App` component
(arrangement geometry, six load components, selected grade/size and the
prying allowance factor). -/
structure Inputs where
  arrangement : BoltArrangement
  numRows : ℕ
  numCols : ℕ
  rowSpacing : ℝ
  colSpacing : ℝ
  diameter : ℝ
  numBolts : ℕ
  vx : ℝ
  vy : ℝ
  tb : ℝ
  mb : ℝ
  mm : ℝ
  nt : ℝ
  boltGrade : String
  boltSize : String
  pryingAllowance : ℝ

/-- Total bolt count: `numRows * numCols` for rectangular, `numBolts` for
circular (the `numBolts` local of the calculation effect). -/
def totalBolts (i : Inputs) : ℕ :=
  match i.arrangement with
  | .rectangular => i.numRows * i.numCols
  | .circular => i.numBolts

/-- The rectangular grid positions of `calculateBoltLayout`:
`startX = -((numCols - 1) * colSpacing) / 2`, and bolt `(row, col)` at
`(startX + col * colSpacing, startY + row * rowSpacing)`, rows outer,
columns inner. -/
noncomputable def rectPositions (nr nc : ℕ) (rs cs : ℝ) : List BoltPosition :=
  (List.range nr).flatMap fun (row : ℕ) =>
    (List.range nc).map fun (col : ℕ) =>
      ⟨-(((nc : ℝ) - 1) * cs) / 2 + (col : ℝ) * cs,
       -(((nr : ℝ) - 1) * rs) / 2 + (row : ℝ) * rs⟩

/-- The circular positions of `calculateBoltLayout`: radius `diameter / 2`,
bolt `k` at angle `k * (2π / numBolts)`. -/
noncomputable def circPositions (n : ℕ) (d : ℝ) : List BoltPosition :=
  (List.range n).map fun (k : ℕ) =>
    ⟨d / 2 * Real.cos ((k : ℝ) * (2 * Real.pi / (n : ℝ))),
     d / 2 * Real.sin ((k : ℝ) * (2 * Real.pi / (n : ℝ)))⟩

/-- `calculateBoltLayout` of the `App` component: the list of bolt
positions together with the polar moment `ibp` (`Σ (x² + y²)` accumulated
over the rectangular grid; closed form `n * r²` for circular). -/
noncomputable def calculateBoltLayout (i : Inputs) : List BoltPosition × ℝ :=
  match i.arrangement with
  | .rectangular =>
    let ps := rectPositions i.numRows i.numCols i.rowSpacing i.colSpacing
    (ps, (ps.map fun p => p.x * p.x + p.y * p.y).sum)
  | .circular =>
    (circPositions i.numBolts i.diameter,
     (i.numBolts : ℝ) * (i.diameter / 2 * (i.diameter / 2)))

/-- Per-bolt resultant shear of the calculation effect (lines 183–190):
`verticalShear = -vy*1000/numBolts + (-tb*1e6)*x/ibp`,
`horizontalShear = -vx*1000/numBolts + (-tb*1e6)*y/ibp`,
`totalShear = sqrt(verticalShear² + horizontalShear²) / 1000`. -/
noncomputable def boltShear (i : Inputs) (n : ℕ) (ibp : ℝ) (p : BoltPosition) : ℝ :=
  let verticalShear := (-i.vy * 1000 / (n : ℝ)) + ((-i.tb * 1e6) * p.x / ibp)
  let horizontalShear := (-i.vx * 1000 / (n : ℝ)) + ((-i.tb * 1e6) * p.y / ibp)
  Real.sqrt (verticalShear ^ 2 + horizontalShear ^ 2) / 1000

/-- Per-bolt tension of the calculation effect (lines 193–204):
`ym = numRows*rowSpacing/2` (rect) or `diameter/2` (circular), `xm`
analogous; `totalAxial = pryingAllowance * (nt*1000/numBolts
+ mb*1e6*y/(2*ym*ym) + mm*1e6*x/(2*xm*xm)) / 1000`. -/
noncomputable def boltTension (i : Inputs) (n : ℕ) (p : BoltPosition) : ℝ :=
  let ym := match i.arrangement with
    | .rectangular => (i.numRows : ℝ) * i.rowSpacing / 2
    | .circular => i.diameter / 2
  let xm := match i.arrangement with
    | .rectangular => (i.numCols : ℝ) * i.colSpacing / 2
    | .circular => i.diameter / 2
  let majorAxisForce := i.mb * 1e6 * p.y / (2 * ym * ym)
  let minorAxisForce := i.mm * 1e6 * p.x / (2 * xm * xm)
  let pureAxialForce := i.nt * 1000 / (n : ℝ)
  i.pryingAllowance * (pureAxialForce + majorAxisForce + minorAxisForce) / 1000

/-- The `results` state shape of the `App` component (the displayed
analysis summary): `shearForce`/`axialForce` hold the computed max shear
and max tension, while the `maxShear`/`maxTension` fields hold the
selected bolt's capacities `phiVf`/`phiNtf`, exactly as `setResults`
stores them. -/
structure ResultsState where
  shearForce : ℝ
  axialForce : ℝ
  combinedRatio : ℝ
  boltPositions : List BoltPosition
  maxShear : ℝ
  maxTension : ℝ
  ibp : ℝ
  tensileArea : ℝ
  shearStress : ℝ
  tensileStress : ℝ

/-- The successful branch of the calculation effect: fold the per-bolt
shears and tensions with `Math.max` starting from `0`, form the combined
interaction ratio and the stresses, and package the `results` record. -/
noncomputable def analysisOf (i : Inputs) (props : BoltProperties) : ResultsState :=
  let n := totalBolts i
  let layout := calculateBoltLayout i
  let positions := layout.1
  let ibp := layout.2
  let maxShear := positions.foldl (fun acc p => max acc (boltShear i n ibp p)) 0
  let maxTension := positions.foldl (fun acc p => max acc (boltTension i n p)) 0
  let combinedRatio := (maxShear / (props.phiVf : ℝ)) ^ 2 + (maxTension / (props.phiNtf : ℝ)) ^ 2
  { shearForce := maxShear
    axialForce := maxTension
    combinedRatio := combinedRatio
    boltPositions := positions
    maxShear := (props.phiVf : ℝ)
    maxTension := (props.phiNtf : ℝ)
    ibp := ibp
    tensileArea := (props.tensileArea : ℝ)
    shearStress := maxShear * 1000 / (props.tensileArea : ℝ)
    tensileStress := maxTension * 1000 / (props.tensileArea : ℝ) }

/-- The engine's structured failures: the two `throw new Error(...)`
conditions of the calculation effect. -/
inductive EvalError where
  | insufficientBoltCount
  | unknownBoltSpec
deriving DecidableEq, Repr

/-- The calculation effect as a fallible evaluation: fewer than 2 bolts
fails first with `InsufficientBoltCount`, then a catalog miss fails with
`UnknownBoltSpec`, otherwise the analysis summary is produced. -/
noncomputable def evaluate (i : Inputs) : Except EvalError ResultsState :=
  if totalBolts i < 2 then .error .insufficientBoltCount
  else
    match getBoltProperties i.boltGrade i.boltSize with
    | none => .error .unknownBoltSpec
    | some props => .ok (analysisOf i props)

/-- The `App` state touched by the calculation effect: the displayed
`results` and the `error` banner. -/
structure AppState where
  results : ResultsState
  error : Option EvalError

/-- One run of the calculation effect over the app state: on success the
results are replaced and the error cleared (`setResults`, `setError(null)`);
on failure only the error is set and the previous results stay displayed. -/
noncomputable def recompute (s : AppState) (i : Inputs) : AppState :=
  match evaluate i with
  | .ok r => { results := r, error := none }
  | .error e => { results := s.results, error := some e }

/-- The acceptance banner (lines 716–728): "Design is acceptable" is shown
exactly when `results.combinedRatio <= 1`. -/
def designAcceptable (r : ResultsState) : Prop :=
  r.combinedRatio ≤ 1

/-- A per-bolt record of the `BoltPattern` component: the stored (display)
coordinates and the computed shear and tension. -/
structure BPForce where
  x : ℝ
  y : ℝ
  shear : ℝ
  tension : ℝ

/-- `calculateBoltForces` of the `BoltPattern` component (`part_000`,
lines 51–126), embedded verbatim: its own grid/circle enumeration, its own
`ibp` accumulation, and its own shear/tension formulas (note its `shearX`
pairs `vx` with the torsion term in `y`, mirrored relative to the `App`
copy). -/
noncomputable def bpCalculateBoltForces (i : Inputs) : List BPForce :=
  let totalBolts : ℕ := match i.arrangement with
    | .rectangular => i.numRows * i.numCols
    | .circular => i.numBolts
  match i.arrangement with
  | .rectangular =>
    let centerX := ((i.numCols : ℝ) - 1) * i.colSpacing / 2
    let centerY := ((i.numRows : ℝ) - 1) * i.rowSpacing / 2
    let ibp := ((List.range i.numRows).flatMap fun (row : ℕ) =>
      (List.range i.numCols).map fun (col : ℕ) =>
        ((col : ℝ) * i.colSpacing - centerX) * ((col : ℝ) * i.colSpacing - centerX) +
        ((row : ℝ) * i.rowSpacing - centerY) * ((row : ℝ) * i.rowSpacing - centerY)).sum
    (List.range i.numRows).flatMap fun (row : ℕ) =>
      (List.range i.numCols).map fun (col : ℕ) =>
        let x := (col : ℝ) * i.colSpacing - centerX
        let y := (row : ℝ) * i.rowSpacing - centerY
        let shearX := (-i.vx * 1000 / (totalBolts : ℝ)) + ((-i.tb * 1e6) * y / ibp)
        let shearY := (-i.vy * 1000 / (totalBolts : ℝ)) + ((-i.tb * 1e6) * x / ibp)
        let totalShear := Real.sqrt (shearX * shearX + shearY * shearY) / 1000
        let ym := (i.numRows : ℝ) * i.rowSpacing / 2
        let xm := (i.numCols : ℝ) * i.colSpacing / 2
        let majorAxisForce := i.mb * 1e6 * y / (2 * ym * ym)
        let minorAxisForce := i.mm * 1e6 * x / (2 * xm * xm)
        let pureAxialForce := i.nt * 1000 / (totalBolts : ℝ)
        let totalTension :=
          i.pryingAllowance * (pureAxialForce + majorAxisForce + minorAxisForce) / 1000
        ⟨(col : ℝ) * i.colSpacing, (row : ℝ) * i.rowSpacing, totalShear, totalTension⟩
  | .circular =>
    let radius := i.diameter / 2
    let ibp := (totalBolts : ℝ) * radius * radius
    (List.range totalBolts).map fun (k : ℕ) =>
      let angle := (k : ℝ) * (2 * Real.pi / (totalBolts : ℝ))
      let x := radius * Real.cos angle
      let y := radius * Real.sin angle
      let shearX := (-i.vx * 1000 / (totalBolts : ℝ)) + ((-i.tb * 1e6) * y / ibp)
      let shearY := (-i.vy * 1000 / (totalBolts : ℝ)) + ((-i.tb * 1e6) * x / ibp)
      let totalShear := Real.sqrt (shearX * shearX + shearY * shearY) / 1000
      let majorAxisForce := i.mb * 1e6 * y / (2 * radius * radius)
      let minorAxisForce := i.mm * 1e6 * x / (2 * radius * radius)
      let pureAxialForce := i.nt * 1000 / (totalBolts : ℝ)
      let totalTension :=
        i.pryingAllowance * (pureAxialForce + majorAxisForce + minorAxisForce) / 1000
      ⟨x + radius, y + radius, totalShear, totalTension⟩

/-!
## Helper machinery: `Math.max` folds
-/

/-- Maximum of a list of reals (`0` on the empty list); states what the
`Math.max` trackers compute on a nonempty list. -/
noncomputable def listMax : List ℝ → ℝ
  | [] => 0
  | x :: xs => xs.foldl max x

lemma le_foldl_max (l : List ℝ) : ∀ a : ℝ, a ≤ l.foldl max a := by
  induction l with
  | nil => intro a; simp
  | cons x xs ih =>
    intro a
    exact le_trans (le_max_left a x) (ih (max a x))

lemma foldl_max_eq_or_mem (l : List ℝ) :
    ∀ a : ℝ, l.foldl max a = a ∨ l.foldl max a ∈ l := by
  induction l with
  | nil => intro a; simp
  | cons x xs ih =>
    intro a
    rcases ih (max a x) with h | h
    · rcases max_choice a x with hx | hx
      · left; simpa [List.foldl_cons, hx] using h
      · right; simp only [List.foldl_cons] at h ⊢
        rw [h, hx]; exact List.mem_cons_self x xs
    · right; exact List.mem_cons_of_mem x h

lemma le_foldl_max_of_mem (l : List ℝ) :
    ∀ a x : ℝ, x ∈ l → x ≤ l.foldl max a := by
  induction l with
  | nil => intro a x h; simp at h
  | cons y ys ih =>
    intro a x h
    rcases List.mem_cons.mp h with rfl | h
    · exact le_trans (le_max_right a x) (le_foldl_max ys _)
    · exact ih _ x h

lemma foldl_max_init (l : List ℝ) :
    ∀ a b : ℝ, l.foldl max (max a b) = max a (l.foldl max b) := by
  induction l with
  | nil => intro a b; simp
  | cons x xs ih =>
    intro a b
    simp only [List.foldl_cons, max_assoc, ih]

lemma foldl_max_zero (l : List ℝ) : l.foldl max 0 = max 0 (listMax l) := by
  cases l with
  | nil => simp [listMax]
  | cons x xs =>
    have : max (0 : ℝ) x = max 0 x := rfl
    simp only [List.foldl_cons, listMax]
    rw [show (max (0 : ℝ) x) = max 0 x from rfl, foldl_max_init]

lemma listMax_mem (l : List ℝ) (h : l ≠ []) : listMax l ∈ l := by
  cases l with
  | nil => exact absurd rfl h
  | cons x xs =>
    rcases foldl_max_eq_or_mem xs x with h' | h'
    · simp [listMax, h']
    · exact List.mem_cons_of_mem x (by simpa [listMax] using h')

lemma le_listMax_of_mem (l : List ℝ) (x : ℝ) (hx : x ∈ l) : x ≤ listMax l := by
  cases l with
  | nil => simp at hx
  | cons y ys =>
    rcases List.mem_cons.mp hx with rfl | h
    · exact le_foldl_max ys x
    · exact le_foldl_max_of_mem ys y x h

/-!
## Concrete inputs used by the witnesses
-/

/-- The default `inputs` state of the `App` component. -/
noncomputable def defaultInputs : Inputs :=
  ⟨.rectangular, 4, 4, 150, 160, 400, 8, 20, 5, 10, 50, 10, 10,
   "Grade 8.8", "M24", 1.1⟩

/-- The catalog row for ("Grade 8.8", "M24"). -/
def grade88M24 : BoltProperties := ⟨"Grade 8.8", "M24", 145.1, 234.1, 352.5, 830⟩

lemma lookup_grade88M24 : getBoltProperties "Grade 8.8" "M24" = some grade88M24 := rfl

/-- A degenerate rectangular arrangement with a single bolt. -/
noncomputable def singleBoltInputs : Inputs :=
  ⟨.rectangular, 1, 1, 150, 160, 400, 8, 20, 5, 10, 50, 10, 10,
   "Grade 8.8", "M24", 1.1⟩

/-- The initial `results`/`error` state of the `App` component (all result
fields zero, no positions, no error). -/
def initialAppState : AppState :=
  ⟨⟨0, 0, 0, [], 0, 0, 0, 0, 0, 0⟩, none⟩

/-- A single-bolt arrangement whose grade/size pair is absent from the
catalog. -/
noncomputable def unknownSpecSingleBolt : Inputs :=
  ⟨.rectangular, 1, 1, 150, 160, 400, 8, 20, 5, 10, 50, 10, 10,
   "Grade 12.9", "M24", 1.1⟩

/-- A two-by-two arrangement whose grade/size pair is absent from the
catalog. -/
noncomputable def unknownSpecFourBolts : Inputs :=
  ⟨.rectangular, 2, 2, 150, 160, 400, 8, 20, 5, 10, 50, 10, 10,
   "Grade 12.9", "M24", 1.1⟩

/-- A 1×2 arrangement loaded only by a negative (compressive) axial force,
with prying allowance 1. -/
noncomputable def negAxialInputs : Inputs :=
  ⟨.rectangular, 1, 2, 100, 100, 400, 8, 0, 0, 0, 0, 0, -8,
   "Grade 8.8", "M24", 1⟩

/-- A 1×2 arrangement loaded only by a minor-axis moment, with prying
allowance 1 (produces a negative tension on the compression-side bolt). -/
noncomputable def minorMomentInputs : Inputs :=
  ⟨.rectangular, 1, 2, 100, 100, 400, 8, 0, 0, 0, 0, 10, 0,
   "Grade 8.8", "M24", 1⟩

/-- The circular scenario of the spec: diameter 400 mm, 8 bolts, all loads
zero except `Nt = 80 kN`, prying allowance 1.1. -/
noncomputable def circAxialInputs : Inputs :=
  ⟨.circular, 4, 4, 150, 160, 400, 8, 0, 0, 0, 0, 0, 80,
   "Grade 8.8", "M24", 1.1⟩

/-!
## Claims
-/

/-- C1: for every arrangement with total bolt count `n ≥ 2` and every load
set, the engine's per-bolt resultant shear at `(x, y)` equals
`sqrt((-Vx·1000/n + (-Tb·1e6)·y/Ibp)² + (-Vy·1000/n + (-Tb·1e6)·x/Ibp)²) / 1000`
with `Ibp` the layout's polar moment. -/
theorem C1_boltShear_formula (i : Inputs) (_h : 2 ≤ totalBolts i) (p : BoltPosition) :
    boltShear i (totalBolts i) (calculateBoltLayout i).2 p =
      Real.sqrt ((-i.vx * 1000 / (totalBolts i : ℝ)
            + (-i.tb * 1e6) * p.y / (calculateBoltLayout i).2) ^ 2
          + (-i.vy * 1000 / (totalBolts i : ℝ)
            + (-i.tb * 1e6) * p.x / (calculateBoltLayout i).2) ^ 2) / 1000 := by
  have key : ∀ A B : ℝ, Real.sqrt (A ^ 2 + B ^ 2) / 1000 = Real.sqrt (B ^ 2 + A ^ 2) / 1000 := by
    intro A B
    rw [add_comm]
  simpa only [boltShear] using
    key (-i.vy * 1000 / (totalBolts i : ℝ) + (-i.tb * 1e6) * p.x / (calculateBoltLayout i).2)
        (-i.vx * 1000 / (totalBolts i : ℝ) + (-i.tb * 1e6) * p.y / (calculateBoltLayout i).2)

theorem C1_boltShear_formula_witness :
    boltShear defaultInputs (totalBolts defaultInputs) (calculateBoltLayout defaultInputs).2
        ⟨0, 0⟩ =
      Real.sqrt ((-defaultInputs.vx * 1000 / (totalBolts defaultInputs : ℝ)
            + (-defaultInputs.tb * 1e6) * (0 : ℝ) / (calculateBoltLayout defaultInputs).2) ^ 2
          + (-defaultInputs.vy * 1000 / (totalBolts defaultInputs : ℝ)
            + (-defaultInputs.tb * 1e6) * (0 : ℝ) / (calculateBoltLayout defaultInputs).2) ^ 2)
        / 1000 :=
  C1_boltShear_formula defaultInputs (by decide) ⟨0, 0⟩

/-- C2: for every arrangement with total bolt count `n ≥ 2`, every load set
and prying allowance `α`, the per-bolt tension at `(x, y)` equals
`α·(Nt·1000/n + Mb·1e6·y/(2·ym²) + Mm·1e6·x/(2·xm²))/1000` with
`ym = numRows·rowSpacing/2`, `xm = numCols·colSpacing/2` for rectangular
and `ym = xm = diameter/2` for circular; the bending terms are not clipped
to zero, so a compression-side bolt can get a negative tension (second
conjunct exhibits one). -/
theorem C2_boltTension_formula :
    (∀ (i : Inputs) (n : ℕ), 2 ≤ n → ∀ p : BoltPosition,
      boltTension i n p =
        i.pryingAllowance * (i.nt * 1000 / (n : ℝ)
          + i.mb * 1e6 * p.y /
              (2 * (match i.arrangement with
                    | .rectangular => (i.numRows : ℝ) * i.rowSpacing / 2
                    | .circular => i.diameter / 2) ^ 2)
          + i.mm * 1e6 * p.x /
              (2 * (match i.arrangement with
                    | .rectangular => (i.numCols : ℝ) * i.colSpacing / 2
                    | .circular => i.diameter / 2) ^ 2)) / 1000)
    ∧ boltTension minorMomentInputs 2 ⟨-50, 0⟩ < 0 := by
  constructor
  · intro i n _ p
    simp only [boltTension]
    rcases h : i.arrangement with _ | _ <;> simp only [h] <;> ring
  · norm_num [boltTension, minorMomentInputs]

theorem C2_boltTension_formula_witness :
    boltTension defaultInputs 16 ⟨0, 75⟩ =
      defaultInputs.pryingAllowance * (defaultInputs.nt * 1000 / (16 : ℝ)
        + defaultInputs.mb * 1e6 * (75 : ℝ) /
            (2 * ((defaultInputs.numRows : ℝ) * defaultInputs.rowSpacing / 2) ^ 2)
        + defaultInputs.mm * 1e6 * (0 : ℝ) /
            (2 * ((defaultInputs.numCols : ℝ) * defaultInputs.colSpacing / 2) ^ 2)) / 1000 :=
  C2_boltTension_formula.1 defaultInputs 16 (by decide) ⟨0, 75⟩

/-- C3: every successful evaluation reports the combined interaction ratio
`(maxShear/phiVf)² + (maxTension/phiNtf)²` of the selected bolt spec, and
the design is reported acceptable iff that ratio is `≤ 1`. -/
theorem C3_combined_ratio (i : Inputs) (props : BoltProperties)
    (h2 : 2 ≤ totalBolts i)
    (hlook : getBoltProperties i.boltGrade i.boltSize = some props) :
    evaluate i = .ok (analysisOf i props) ∧
    (analysisOf i props).combinedRatio =
      ((analysisOf i props).shearForce / (props.phiVf : ℝ)) ^ 2 +
      ((analysisOf i props).axialForce / (props.phiNtf : ℝ)) ^ 2 ∧
    (designAcceptable (analysisOf i props) ↔ (analysisOf i props).combinedRatio ≤ 1) := by
  refine ⟨?_, ?_, Iff.rfl⟩
  · unfold evaluate
    rw [if_neg (by omega), hlook]
  · simp only [analysisOf]

theorem C3_combined_ratio_witness :
    evaluate defaultInputs = .ok (analysisOf defaultInputs grade88M24) ∧
    (analysisOf defaultInputs grade88M24).combinedRatio =
      ((analysisOf defaultInputs grade88M24).shearForce / (grade88M24.phiVf : ℝ)) ^ 2 +
      ((analysisOf defaultInputs grade88M24).axialForce / (grade88M24.phiNtf : ℝ)) ^ 2 ∧
    (designAcceptable (analysisOf defaultInputs grade88M24) ↔
      (analysisOf defaultInputs grade88M24).combinedRatio ≤ 1) :=
  C3_combined_ratio defaultInputs grade88M24 (by decide) lookup_grade88M24

/-- C5: whenever the total bolt count is below 2 the evaluation fails with
`InsufficientBoltCount`, no partial result is produced, and a recompute
leaves the previously displayed results unchanged (only the error is set). -/
theorem C5_insufficient_bolt_count (i : Inputs) (s : AppState) (h : totalBolts i < 2) :
    evaluate i = .error .insufficientBoltCount ∧
    recompute s i = { results := s.results, error := some .insufficientBoltCount } := by
  have he : evaluate i = .error .insufficientBoltCount := by
    unfold evaluate
    rw [if_pos h]
  exact ⟨he, by unfold recompute; rw [he]⟩

theorem C5_insufficient_bolt_count_witness :
    evaluate singleBoltInputs = .error .insufficientBoltCount ∧
    recompute initialAppState singleBoltInputs =
      { results := initialAppState.results, error := some .insufficientBoltCount } :=
  C5_insufficient_bolt_count singleBoltInputs initialAppState (by decide)

/-- C6 counterexample: a single-bolt input whose grade/size pair is absent
from the catalog does not fail with `UnknownBoltSpec` — the bolt-count
check fires first, so the claim "when the pair is absent the engine fails
that evaluation with the UnknownBoltSpec error" is false as stated. -/
theorem C6_counterexample :
    getBoltProperties unknownSpecSingleBolt.boltGrade unknownSpecSingleBolt.boltSize = none ∧
    evaluate unknownSpecSingleBolt = .error .insufficientBoltCount ∧
    evaluate unknownSpecSingleBolt ≠ .error .unknownBoltSpec := by
  have he : evaluate unknownSpecSingleBolt = .error .insufficientBoltCount := by
    unfold evaluate
    rw [if_pos (by decide)]
  refine ⟨rfl, he, ?_⟩
  rw [he]
  simp

/-- C6 (amended): the lookup returns a catalog row matching the requested
grade and size when one exists and `none` exactly when no row matches
(it is a total function, so it never throws); and whenever the bolt-count
check passes (total bolt count ≥ 2) and the pair is absent, the evaluation
fails with `UnknownBoltSpec` and produces no result. -/
theorem C6_lookup_behaviour (g s : String) (i : Inputs) :
    ((∃ b ∈ boltData, b.grade = g ∧ b.size = s) →
      ∃ b, getBoltProperties g s = some b ∧ b ∈ boltData ∧ b.grade = g ∧ b.size = s)
    ∧ (getBoltProperties g s = none ↔ ∀ b ∈ boltData, ¬(b.grade = g ∧ b.size = s))
    ∧ (2 ≤ totalBolts i → getBoltProperties i.boltGrade i.boltSize = none →
        evaluate i = .error .unknownBoltSpec) := by
  refine ⟨?_, ?_, ?_⟩
  · rintro ⟨b, hb, hg, hs⟩
    have hsome : (boltData.find? (fun b => b.grade == g && b.size == s)).isSome := by
      rw [List.find?_isSome]
      exact ⟨b, hb, by simp [hg, hs]⟩
    obtain ⟨b', hb'⟩ := Option.isSome_iff_exists.mp hsome
    have hpred := List.find?_some hb'
    simp only [Bool.and_eq_true, beq_iff_eq] at hpred
    exact ⟨b', hb', List.mem_of_find?_eq_some hb', hpred.1, hpred.2⟩
  · unfold getBoltProperties
    rw [List.find?_eq_none]
    constructor
    · intro hnone b hb hmatch
      have := hnone b hb
      simp [hmatch.1, hmatch.2] at this
    · intro hno b hb
      simp only [Bool.and_eq_true, beq_iff_eq, not_and]
      intro hg hs
      exact hno b hb ⟨hg, hs⟩
  · intro h2 hnone
    unfold evaluate
    rw [if_neg (by omega), hnone]

theorem C6_lookup_behaviour_witness :
    evaluate unknownSpecFourBolts = .error .unknownBoltSpec :=
  (C6_lookup_behaviour "Grade 12.9" "M24" unknownSpecFourBolts).2.2 (by decide) rfl

/-- C7: with all loads zero except the axial force `Nt`, every bolt's
tension equals `α·Nt/n`, uniformly across positions. -/
theorem C7_pure_axial (i : Inputs)
    (_hvx : i.vx = 0) (_hvy : i.vy = 0) (_htb : i.tb = 0) (hmb : i.mb = 0) (hmm : i.mm = 0)
    (h2 : 2 ≤ totalBolts i) (p : BoltPosition) :
    boltTension i (totalBolts i) p = i.pryingAllowance * i.nt / (totalBolts i : ℝ) := by
  have hn : ((totalBolts i : ℕ) : ℝ) ≠ 0 := Nat.cast_ne_zero.mpr (by omega)
  simp only [boltTension, hmb, hmm, zero_mul, mul_zero, zero_div, add_zero]
  field_simp
  ring

/-- C7 witness: the spec scenario — circular, diameter 400 mm, 8 bolts,
`Nt = 80 kN`, `α = 1.1` — gives tension exactly 11 kN (shown at the first
bolt position, `(200, 0)`; by `C7_pure_axial` the value is the same at
every position). -/
theorem C7_pure_axial_witness :
    boltTension circAxialInputs (totalBolts circAxialInputs) ⟨200, 0⟩ = 11 := by
  have h := C7_pure_axial circAxialInputs rfl rfl rfl rfl rfl (by decide) ⟨200, 0⟩
  rw [h]
  norm_num [circAxialInputs, totalBolts]

/-!
## C4: what the `Math.max` trackers report
-/

lemma length_range_flatMap_map {α : Type} (nr nc : ℕ) (f : ℕ → ℕ → α) :
    ((List.range nr).flatMap fun row => (List.range nc).map (f row)).length = nr * nc := by
  induction nr with
  | zero => simp
  | succ n ih =>
    rw [List.range_succ, List.flatMap_append, List.length_append, ih,
      List.flatMap_singleton, List.length_map, List.length_range, Nat.succ_mul]

lemma length_rectPositions (nr nc : ℕ) (rs cs : ℝ) :
    (rectPositions nr nc rs cs).length = nr * nc :=
  length_range_flatMap_map nr nc _

lemma layout_length (i : Inputs) :
    ((calculateBoltLayout i).1).length = totalBolts i := by
  rcases h : i.arrangement with _ | _
  · simp only [calculateBoltLayout, totalBolts, h]
    exact length_rectPositions _ _ _ _
  · simp only [calculateBoltLayout, totalBolts, h, circPositions]
    rw [List.length_map, List.length_range]

lemma boltShear_nonneg (i : Inputs) (n : ℕ) (ibp : ℝ) (p : BoltPosition) :
    0 ≤ boltShear i n ibp p := by
  simp only [boltShear]
  positivity

lemma analysisOf_shearForce (i : Inputs) (props : BoltProperties) :
    (analysisOf i props).shearForce =
      max 0 (listMax (((calculateBoltLayout i).1).map
        (boltShear i (totalBolts i) (calculateBoltLayout i).2))) := by
  simp only [analysisOf]
  rw [← List.foldl_map (boltShear i (totalBolts i) (calculateBoltLayout i).2) max,
    foldl_max_zero]

lemma analysisOf_axialForce (i : Inputs) (props : BoltProperties) :
    (analysisOf i props).axialForce =
      max 0 (listMax (((calculateBoltLayout i).1).map (boltTension i (totalBolts i)))) := by
  simp only [analysisOf]
  rw [← List.foldl_map (boltTension i (totalBolts i)) max, foldl_max_zero]

/-- C4 (amended): on every successful evaluation the reported max shear is
the true maximum of the per-bolt shears (those are nonnegative); the
reported max tension is `max 0` of the true maximum of the per-bolt
tensions — the tracker starts at `0`, so when every bolt's tension is
negative the report is `0`, not the (negative) list maximum. -/
theorem C4_max_tracking (i : Inputs) (props : BoltProperties)
    (h2 : 2 ≤ totalBolts i)
    (hlook : getBoltProperties i.boltGrade i.boltSize = some props) :
    evaluate i = .ok (analysisOf i props) ∧
    (analysisOf i props).shearForce =
      listMax (((calculateBoltLayout i).1).map
        (boltShear i (totalBolts i) (calculateBoltLayout i).2)) ∧
    (∀ p ∈ (calculateBoltLayout i).1,
      boltShear i (totalBolts i) (calculateBoltLayout i).2 p ≤ (analysisOf i props).shearForce) ∧
    (analysisOf i props).axialForce =
      max 0 (listMax (((calculateBoltLayout i).1).map (boltTension i (totalBolts i)))) ∧
    (∀ p ∈ (calculateBoltLayout i).1,
      boltTension i (totalBolts i) p ≤ (analysisOf i props).axialForce) := by
  have hne : ((calculateBoltLayout i).1).map
      (boltShear i (totalBolts i) (calculateBoltLayout i).2) ≠ [] := by
    intro hcon
    have := congrArg List.length hcon
    rw [List.length_map, layout_length] at this
    simp at this
    omega
  have hmemnn : listMax (((calculateBoltLayout i).1).map
      (boltShear i (totalBolts i) (calculateBoltLayout i).2)) ∈
      ((calculateBoltLayout i).1).map
        (boltShear i (totalBolts i) (calculateBoltLayout i).2) :=
    listMax_mem _ hne
  have hnn : 0 ≤ listMax (((calculateBoltLayout i).1).map
      (boltShear i (totalBolts i) (calculateBoltLayout i).2)) := by
    obtain ⟨p, _, hval⟩ := List.mem_map.mp hmemnn
    rw [← hval]
    exact boltShear_nonneg i _ _ p
  have hshear : (analysisOf i props).shearForce =
      listMax (((calculateBoltLayout i).1).map
        (boltShear i (totalBolts i) (calculateBoltLayout i).2)) := by
    rw [analysisOf_shearForce, max_eq_right hnn]
  refine ⟨?_, hshear, ?_, analysisOf_axialForce i props, ?_⟩
  · unfold evaluate
    rw [if_neg (by omega), hlook]
  · intro p hp
    rw [hshear]
    exact le_listMax_of_mem _ _ (List.mem_map_of_mem _ hp)
  · intro p hp
    rw [analysisOf_axialForce]
    exact le_trans (le_listMax_of_mem _ _ (List.mem_map_of_mem _ hp)) (le_max_right _ _)

theorem C4_max_tracking_witness :
    evaluate defaultInputs = .ok (analysisOf defaultInputs grade88M24) ∧
    (analysisOf defaultInputs grade88M24).shearForce =
      listMax (((calculateBoltLayout defaultInputs).1).map
        (boltShear defaultInputs (totalBolts defaultInputs)
          (calculateBoltLayout defaultInputs).2)) ∧
    (analysisOf defaultInputs grade88M24).axialForce =
      max 0 (listMax (((calculateBoltLayout defaultInputs).1).map
        (boltTension defaultInputs (totalBolts defaultInputs)))) := by
  obtain ⟨h1, h2, _, h4, _⟩ :=
    C4_max_tracking defaultInputs grade88M24 (by decide) lookup_grade88M24
  exact ⟨h1, h2, h4⟩

/-- C4 counterexample: a successful evaluation (1×2 grid, `Nt = −8 kN`,
all other loads zero, `α = 1`) in which every bolt's tension is `−4 kN`
but the reported max tension is `0`, not the maximum `−4` over the bolts. -/
theorem C4_counterexample :
    (evaluate negAxialInputs).map ResultsState.axialForce = .ok 0 ∧
    ((calculateBoltLayout negAxialInputs).1).map
      (boltTension negAxialInputs (totalBolts negAxialInputs)) = [-4, -4] ∧
    listMax [(-4 : ℝ), -4] = -4 := by
  have hpos : (calculateBoltLayout negAxialInputs).1 =
      [⟨-50, 0⟩, ⟨50, 0⟩] := by
    simp only [calculateBoltLayout, negAxialInputs, rectPositions]
    norm_num [List.range_succ]
  have ht : ∀ p : BoltPosition, boltTension negAxialInputs (totalBolts negAxialInputs) p =
      -4 + 0 * p.x + 0 * p.y := by
    intro p
    norm_num [boltTension, negAxialInputs, totalBolts]
  have hmap : ((calculateBoltLayout negAxialInputs).1).map
      (boltTension negAxialInputs (totalBolts negAxialInputs)) = [-4, -4] := by
    rw [hpos]
    simp only [List.map_cons, List.map_nil, ht]
    norm_num
  refine ⟨?_, hmap, by simp [listMax]⟩
  have heval : evaluate negAxialInputs = .ok (analysisOf negAxialInputs grade88M24) := by
    unfold evaluate
    rw [if_neg (by decide),
      show getBoltProperties negAxialInputs.boltGrade negAxialInputs.boltSize =
        some grade88M24 from rfl]
  rw [heval]
  have : (analysisOf negAxialInputs grade88M24).axialForce = 0 := by
    rw [analysisOf_axialForce, hmap]
    norm_num [listMax]
  simp [Except.map, this]

/-!
## C9: the polar moment is strictly positive
-/

/-- C9: under the data-model preconditions (positive spacings for
rectangular, positive diameter for circular, at least 2 bolts) the polar
moment `Ibp` computed by the layout is strictly positive, so the torsional
division by `Ibp` never divides by zero. -/
theorem C9_ibp_pos (i : Inputs)
    (hrect : i.arrangement = .rectangular → 0 < i.rowSpacing ∧ 0 < i.colSpacing)
    (hcirc : i.arrangement = .circular → 0 < i.diameter)
    (h2 : 2 ≤ totalBolts i) :
    0 < (calculateBoltLayout i).2 := by
  rcases h : i.arrangement with _ | _
  · obtain ⟨hrs, hcs⟩ := hrect h
    have hn : 2 ≤ i.numRows * i.numCols := by
      rw [totalBolts, h] at h2
      exact h2
    have hnr : 1 ≤ i.numRows := by
      rcases Nat.eq_zero_or_pos i.numRows with h0 | h1
      · rw [h0] at hn; omega
      · exact h1
    have hnc : 1 ≤ i.numCols := by
      rcases Nat.eq_zero_or_pos i.numCols with h0 | h1
      · rw [h0, Nat.mul_zero] at hn; omega
      · exact h1
    have hcase : 2 ≤ i.numRows ∨ 2 ≤ i.numCols := by
      by_contra hcon
      push_neg at hcon
      have := Nat.mul_le_mul (Nat.lt_succ_iff.mp hcon.1) (Nat.lt_succ_iff.mp hcon.2)
      omega
    simp only [calculateBoltLayout, h]
    set p0 : BoltPosition :=
      ⟨-(((i.numCols : ℝ) - 1) * i.colSpacing) / 2 + ((0 : ℕ) : ℝ) * i.colSpacing,
       -(((i.numRows : ℝ) - 1) * i.rowSpacing) / 2 + ((0 : ℕ) : ℝ) * i.rowSpacing⟩ with hp0
    have hmem : p0 ∈ rectPositions i.numRows i.numCols i.rowSpacing i.colSpacing := by
      unfold rectPositions
      refine List.mem_flatMap.mpr ⟨0, List.mem_range.mpr (by omega), ?_⟩
      exact List.mem_map.mpr ⟨0, List.mem_range.mpr (by omega), rfl⟩
    have htmem : p0.x * p0.x + p0.y * p0.y ∈
        (rectPositions i.numRows i.numCols i.rowSpacing i.colSpacing).map
          (fun p => p.x * p.x + p.y * p.y) :=
      List.mem_map_of_mem _ hmem
    have hnonneg : ∀ z ∈ (rectPositions i.numRows i.numCols i.rowSpacing i.colSpacing).map
        (fun p => p.x * p.x + p.y * p.y), 0 ≤ z := by
      intro z hz
      obtain ⟨p, _, hval⟩ := List.mem_map.mp hz
      rw [← hval]
      exact add_nonneg (mul_self_nonneg _) (mul_self_nonneg _)
    have ht0 : 0 < p0.x * p0.x + p0.y * p0.y := by
      rcases hcase with hr | hc
      · have hy : p0.y < 0 := by
          rw [hp0]
          have : (1 : ℝ) ≤ (i.numRows : ℝ) - 1 := by
            have : (2 : ℝ) ≤ (i.numRows : ℝ) := by exact_mod_cast hr
            linarith
          simp only [Nat.cast_zero, zero_mul, add_zero]
          have : 0 < ((i.numRows : ℝ) - 1) * i.rowSpacing := by positivity
          linarith
        have : 0 < p0.y * p0.y := mul_pos_of_neg_of_neg hy hy
        have := mul_self_nonneg p0.x
        linarith
      · have hx : p0.x < 0 := by
          rw [hp0]
          have : (1 : ℝ) ≤ (i.numCols : ℝ) - 1 := by
            have : (2 : ℝ) ≤ (i.numCols : ℝ) := by exact_mod_cast hc
            linarith
          simp only [Nat.cast_zero, zero_mul, add_zero]
          have : 0 < ((i.numCols : ℝ) - 1) * i.colSpacing := by positivity
          linarith
        have : 0 < p0.x * p0.x := mul_pos_of_neg_of_neg hx hx
        have := mul_self_nonneg p0.y
        linarith
    calc (0 : ℝ) < p0.x * p0.x + p0.y * p0.y := ht0
      _ ≤ _ := List.single_le_sum hnonneg _ htmem
  · have hd := hcirc h
    have hn : 2 ≤ i.numBolts := by
      rw [totalBolts, h] at h2
      exact h2
    simp only [calculateBoltLayout, h]
    have hnb : 0 < (i.numBolts : ℝ) := by
      exact_mod_cast Nat.lt_of_lt_of_le Nat.zero_lt_two hn
    have : 0 < i.diameter / 2 := by linarith
    positivity

theorem C9_ibp_pos_witness : 0 < (calculateBoltLayout defaultInputs).2 :=
  C9_ibp_pos defaultInputs
    (fun _ => by constructor <;> norm_num [defaultInputs])
    (fun hcon => nomatch hcon)
    (by decide)

/-!
## C8: the generated coordinates are centred on the origin
-/

lemma sum_map_range (n : ℕ) (f : ℕ → ℝ) :
    ((List.range n).map f).sum = ∑ k ∈ Finset.range n, f k := by
  induction n with
  | zero => simp
  | succ m ih =>
    rw [List.range_succ, List.map_append, List.sum_append, Finset.sum_range_succ, ih]
    simp

lemma sum_flatMap_range (n : ℕ) (g : ℕ → List ℝ) :
    ((List.range n).flatMap g).sum = ∑ k ∈ Finset.range n, (g k).sum := by
  induction n with
  | zero => simp
  | succ m ih =>
    rw [List.range_succ, List.flatMap_append, List.sum_append, Finset.sum_range_succ, ih,
      List.flatMap_singleton]

lemma sum_range_cast (n : ℕ) :
    ∑ k ∈ Finset.range n, (k : ℝ) = (n : ℝ) * ((n : ℝ) - 1) / 2 := by
  induction n with
  | zero => simp
  | succ m ih =>
    rw [Finset.sum_range_succ, ih]
    push_cast
    ring

lemma sum_cos_zero (n : ℕ) (hn : 2 ≤ n) :
    ∑ k ∈ Finset.range n, Real.cos ((k : ℝ) * (2 * Real.pi / (n : ℝ))) = 0 ∧
    ∑ k ∈ Finset.range n, Real.sin ((k : ℝ) * (2 * Real.pi / (n : ℝ))) = 0 := by
  have hnR : (0 : ℝ) < (n : ℝ) := by
    exact_mod_cast Nat.lt_of_lt_of_le Nat.zero_lt_two hn
  have hnC : (n : ℂ) ≠ 0 := Nat.cast_ne_zero.mpr (by omega)
  set θ : ℝ := 2 * Real.pi / (n : ℝ) with hθ
  have hθpos : 0 < θ := by
    rw [hθ]
    positivity
  have hθlt : θ < 2 * Real.pi := by
    rw [hθ, div_lt_iff₀ hnR]
    have h1 : (1 : ℝ) < (n : ℝ) := by exact_mod_cast Nat.lt_of_lt_of_le Nat.one_lt_two hn
    nlinarith [Real.pi_pos]
  have h2π : (0 : ℝ) < 2 * Real.pi := by positivity
  set ζ : ℂ := Complex.exp ((θ : ℂ) * Complex.I) with hζ
  have hζne : ζ ≠ 1 := by
    intro hone
    rw [hζ, Complex.exp_eq_one_iff] at hone
    obtain ⟨m, hm⟩ := hone
    have hmI : (θ : ℂ) * Complex.I = ((m : ℝ) * (2 * Real.pi) : ℝ) * Complex.I := by
      rw [hm]
      push_cast
      ring
    have hre : θ = (m : ℝ) * (2 * Real.pi) :=
      Complex.ofReal_inj.mp (mul_right_cancel₀ Complex.I_ne_zero hmI)
    have hm' : (m : ℝ) = θ / (2 * Real.pi) := by
      field_simp [hre]
    have hpos : 0 < (m : ℝ) := by
      rw [hm']
      exact div_pos hθpos h2π
    have hlt : (m : ℝ) < 1 := by
      rw [hm']
      exact (div_lt_one h2π).mpr hθlt
    have hm1 : 1 ≤ m := by
      have : 0 < m := by exact_mod_cast hpos
      omega
    have : (1 : ℝ) ≤ (m : ℝ) := by exact_mod_cast hm1
    linarith
  have hζn : ζ ^ n = 1 := by
    rw [hζ, ← Complex.exp_nat_mul]
    have harg : (n : ℂ) * ((θ : ℂ) * Complex.I) = 2 * (Real.pi : ℂ) * Complex.I := by
      rw [hθ]
      push_cast
      field_simp
    rw [harg, Complex.exp_two_pi_mul_I]
  have hgeom : ∑ k ∈ Finset.range n, ζ ^ k = 0 := by
    rw [geom_sum_eq hζne, hζn]
    simp
  have hζk : ∀ k : ℕ, ζ ^ k = Complex.exp (((k : ℝ) * θ : ℝ) * Complex.I) := by
    intro k
    rw [hζ, ← Complex.exp_nat_mul]
    congr 1
    push_cast
    ring
  constructor
  · have hre := congrArg Complex.re hgeom
    rw [Complex.re_sum] at hre
    simp only [hζk, Complex.exp_ofReal_mul_I_re] at hre
    simpa using hre
  · have him := congrArg Complex.im hgeom
    rw [Complex.im_sum] at him
    simp only [hζk, Complex.exp_ofReal_mul_I_im] at him
    simpa using him

/-- C8: for every rectangular arrangement, and every circular arrangement
with at least 2 bolts, the generated bolt coordinates sum to zero in both
axes — the group centroid is exactly the origin. -/
theorem C8_centroid (i : Inputs)
    (hcirc : i.arrangement = .circular → 2 ≤ i.numBolts) :
    (((calculateBoltLayout i).1).map BoltPosition.x).sum = 0 ∧
    (((calculateBoltLayout i).1).map BoltPosition.y).sum = 0 := by
  rcases h : i.arrangement with _ | _
  · simp only [calculateBoltLayout, h, rectPositions, List.map_flatMap, List.map_map,
      Function.comp, sum_flatMap_range, sum_map_range]
    constructor
    · refine Finset.sum_eq_zero fun r _ => ?_
      rw [Finset.sum_add_distrib, Finset.sum_const, Finset.card_range, ← Finset.sum_mul,
        sum_range_cast, nsmul_eq_mul]
      ring
    · have hstep : ∀ r ∈ Finset.range i.numRows,
          (∑ _col ∈ Finset.range i.numCols,
            (-(((i.numRows : ℝ) - 1) * i.rowSpacing) / 2 + (r : ℝ) * i.rowSpacing)) =
          (i.numCols : ℝ) *
            (-(((i.numRows : ℝ) - 1) * i.rowSpacing) / 2 + (r : ℝ) * i.rowSpacing) := by
        intro r _
        rw [Finset.sum_const, Finset.card_range, nsmul_eq_mul]
      rw [Finset.sum_congr rfl hstep, ← Finset.mul_sum, Finset.sum_add_distrib,
        Finset.sum_const, Finset.card_range, ← Finset.sum_mul, sum_range_cast, nsmul_eq_mul]
      ring
  · have hn := hcirc h
    simp only [calculateBoltLayout, h, circPositions, List.map_map, Function.comp,
      sum_map_range]
    constructor
    · have := (sum_cos_zero i.numBolts hn).1
      rw [← Finset.mul_sum, this, mul_zero]
    · have := (sum_cos_zero i.numBolts hn).2
      rw [← Finset.mul_sum, this, mul_zero]

theorem C8_centroid_witness :
    (((calculateBoltLayout circAxialInputs).1).map BoltPosition.x).sum = 0 ∧
    (((calculateBoltLayout circAxialInputs).1).map BoltPosition.y).sum = 0 :=
  C8_centroid circAxialInputs (fun _ => by decide)

/-!
## C10: the two copies of the force distribution agree
-/

/-- C10: for every input, the per-bolt `(shear, tension)` values computed
by the `BoltPattern` component's `calculateBoltForces` equal, bolt for bolt
in enumeration order, those computed by the `App` engine — the two copies
pair the torsion terms with the shear components in mirrored but
magnitude-equivalent ways. -/
theorem C10_bp_equivalence (i : Inputs) :
    (bpCalculateBoltForces i).map (fun f => (f.shear, f.tension)) =
    ((calculateBoltLayout i).1).map (fun p =>
      (boltShear i (totalBolts i) (calculateBoltLayout i).2 p,
       boltTension i (totalBolts i) p)) := by
  rcases h : i.arrangement with _ | _
  · have hibp :
        ((List.range i.numRows).flatMap fun (row : ℕ) =>
          (List.range i.numCols).map fun (col : ℕ) =>
            ((col : ℝ) * i.colSpacing - ((i.numCols : ℝ) - 1) * i.colSpacing / 2) *
              ((col : ℝ) * i.colSpacing - ((i.numCols : ℝ) - 1) * i.colSpacing / 2) +
            ((row : ℝ) * i.rowSpacing - ((i.numRows : ℝ) - 1) * i.rowSpacing / 2) *
              ((row : ℝ) * i.rowSpacing - ((i.numRows : ℝ) - 1) * i.rowSpacing / 2)).sum =
        ((List.range i.numRows).flatMap fun (a : ℕ) =>
          (List.range i.numCols).map ((fun p : BoltPosition => p.x * p.x + p.y * p.y) ∘
            fun (col : ℕ) =>
              (⟨-(((i.numCols : ℝ) - 1) * i.colSpacing) / 2 + (col : ℝ) * i.colSpacing,
                -(((i.numRows : ℝ) - 1) * i.rowSpacing) / 2 + (a : ℝ) * i.rowSpacing⟩ :
                BoltPosition))).sum := by
      simp only [Function.comp, sum_flatMap_range, sum_map_range]
      exact Finset.sum_congr rfl fun r _ => Finset.sum_congr rfl fun c _ => by ring
    simp only [bpCalculateBoltForces, calculateBoltLayout, totalBolts, h, rectPositions,
      boltShear, boltTension, List.map_flatMap, List.map_map, Function.comp]
    congr 1
    funext r
    congr 1
    funext c
    simp only [Function.comp_apply, Prod.mk.injEq]
    constructor
    · rw [hibp]
      congr 1
      congr 1
      ring
    · ring
  · simp only [bpCalculateBoltForces, calculateBoltLayout, totalBolts, h, circPositions,
      boltShear, boltTension, List.map_map, Function.comp]
    congr 1
    funext k
    simp only [Function.comp_apply, Prod.mk.injEq]
    constructor
    · congr 1
      congr 1
      ring_nf
    · ring_nf

end BoltAssembly
